import Mathlib

/-
Verification of the risk-governance layer of the HFT repository.

Shallow embedding of:
  * src/risk_management/limits.py           (namespace Limits)
  * src/execution/risk_manager.py           (namespace RM)
  * src/risk_management/real_time_monitoring.py (namespace Monitoring)

Python numbers that the code uses as exact integers are modelled as Int
(counters as Nat), timestamps as whole seconds (Nat).  Logging calls have
no effect on program state and are dropped, except where a claim is about
which violations get reported: there the sequence of emitted error
messages / enforcement actions is made explicit as data.
-/

set_option autoImplicit false

namespace Limits

/--
State of class `RiskLimits` (src/risk_management/limits.py, `__init__`).
`last_order_time` is `none` before the first recorded order, mirroring the
Python initialisation to `None`.  The Python `datetime` values only enter
the code via subtraction whose `.seconds` attribute is, for a nondecreasing
clock, the difference in whole seconds modulo 86400; timestamps are
therefore modelled as `Nat` seconds.  `trades` and `closed_positions` keep
(timestamp, value) pairs in append order.
-/
structure RiskLimits where
  max_position_size : Int
  max_loss_per_day : Int
  max_trade_loss : Int
  stop_loss_threshold : Int
  max_orders_per_minute : Nat
  current_position_size : Int
  current_loss_per_day : Int
  current_trade_loss : Int
  orders_this_minute : Nat
  last_order_time : Option Nat
  daily_limit_breached : Bool
  trades : List (Nat × Int)
  closed_positions : List (Nat × Int)
  deriving Repr, DecidableEq

/-- Constructor `RiskLimits.__init__`: limits from arguments, all tracking
variables zeroed, no last order, breach flag down, empty logs. -/
def RiskLimits.init (mps mld mtl slt : Int) (mopm : Nat) : RiskLimits :=
  { max_position_size := mps
    max_loss_per_day := mld
    max_trade_loss := mtl
    stop_loss_threshold := slt
    max_orders_per_minute := mopm
    current_position_size := 0
    current_loss_per_day := 0
    current_trade_loss := 0
    orders_this_minute := 0
    last_order_time := none
    daily_limit_breached := false
    trades := []
    closed_positions := [] }

/-- Method `can_take_position`: reject when the absolute prospective
aggregate position exceeds `max_position_size`, else accept. -/
def can_take_position (s : RiskLimits) (position_size : Int) : Bool :=
  if |s.current_position_size + position_size| > s.max_position_size then false else true

/-- Method `update_position_size`: add to the aggregate and append a trade
record stamped with the current time. -/
def update_position_size (now : Nat) (s : RiskLimits) (position_size : Int) : RiskLimits :=
  { s with current_position_size := s.current_position_size + position_size
           trades := s.trades ++ [(now, position_size)] }

/-- Method `can_take_loss`: reject when the absolute trade loss exceeds
`max_trade_loss`. -/
def can_take_loss (s : RiskLimits) (trade_loss : Int) : Bool :=
  if |trade_loss| > s.max_trade_loss then false else true

/-- Method `update_trade_loss`: the source adds the loss onto both
`current_trade_loss` and `current_loss_per_day` with `+=`. -/
def update_trade_loss (s : RiskLimits) (trade_loss : Int) : RiskLimits :=
  { s with current_trade_loss := s.current_trade_loss + trade_loss
           current_loss_per_day := s.current_loss_per_day + trade_loss }

/-- Method `check_daily_loss_limit`: on breach, raise the sticky
`daily_limit_breached` flag and return `false`; otherwise leave the state
untouched and return `true`. -/
def check_daily_loss_limit (s : RiskLimits) : Bool × RiskLimits :=
  if |s.current_loss_per_day| > s.max_loss_per_day then
    (false, { s with daily_limit_breached := true })
  else
    (true, s)

/-- Method `should_trigger_stop_loss`: pure check against the threshold. -/
def should_trigger_stop_loss (s : RiskLimits) (current_position_value : Int) : Bool :=
  if |current_position_value| ≤ s.stop_loss_threshold then true else false

/-- Method `reset_daily_limits`: clears the two loss counters and the
sticky breach flag; nothing else is touched. -/
def reset_daily_limits (s : RiskLimits) : RiskLimits :=
  { s with current_loss_per_day := 0
           current_trade_loss := 0
           daily_limit_breached := false }

/-- Counter update of method `check_order_rate`, performed before the
threshold comparison.  Python computes `(now - last).seconds / 60.0 < 1`,
i.e. the difference in seconds modulo 86400 is below 60: then the counter
is incremented, otherwise it restarts at 1.  The current time is always
recorded as `last_order_time`. -/
def order_rate_update (now : Nat) (s : RiskLimits) : RiskLimits :=
  match s.last_order_time with
  | some t =>
      if (now - t) % 86400 < 60 then
        { s with orders_this_minute := s.orders_this_minute + 1, last_order_time := some now }
      else
        { s with orders_this_minute := 1, last_order_time := some now }
  | none =>
      { s with orders_this_minute := 1, last_order_time := some now }

/-- Method `check_order_rate`: update the rolling counter, then fail iff
the updated counter exceeds `max_orders_per_minute`. -/
def check_order_rate (now : Nat) (s : RiskLimits) : Bool × RiskLimits :=
  let s2 := order_rate_update now s
  if s2.orders_this_minute > s.max_orders_per_minute then (false, s2) else (true, s2)

/-- Method `close_position`: append a closed-position record and zero the
aggregate position. -/
def close_position (now : Nat) (s : RiskLimits) (position_value : Int) : RiskLimits :=
  { s with closed_positions := s.closed_positions ++ [(now, position_value)]
           current_position_size := 0 }

/-- Method `evaluate_risk`: daily-loss check first (early return on
failure), then the order-rate check (early return on failure), else pass.
The risk summary it reads first has no effect on state. -/
def evaluate_risk (now : Nat) (s : RiskLimits) : Bool × RiskLimits :=
  let r1 := check_daily_loss_limit s
  if !r1.1 then (false, r1.2)
  else
    let r2 := check_order_rate now r1.2
    if !r2.1 then (false, r2.2)
    else (true, r2.2)

/-- Driver folding a list of order timestamps through `check_order_rate`,
collecting each call's verdict. -/
def run_order_calls : List Nat → RiskLimits → List Bool × RiskLimits
  | [], s => ([], s)
  | t :: ts, s =>
      let r := check_order_rate t s
      let rest := run_order_calls ts r.2
      (r.1 :: rest.1, rest.2)

/-- Number of order timestamps in `ts` lying within the 60 seconds ending
at `now`.  This is the sliding-window semantics asserted by the spec
sentence on `OrderRateLimiter`; it intentionally follows the spec words,
not the source, and is compared against the source behaviour. -/
def ordersInWindow (ts : List Nat) (now : Nat) : Nat :=
  (ts.filter (fun t => decide (t ≤ now) && decide (now ≤ t + 60))).length

/-- Non-reset operations on a `RiskLimits` object (every state-affecting
method except `reset_daily_limits`), used to express that the sticky
breach flag survives arbitrary such sequences. -/
inductive LOp where
  | updatePos (now : Nat) (size : Int)
  | updateLoss (loss : Int)
  | checkDaily
  | checkRate (now : Nat)
  | evalRisk (now : Nat)
  | closePos (now : Nat) (value : Int)
  deriving Repr, DecidableEq

/-- Apply one non-reset operation to the state, discarding returned
booleans. -/
def applyLOp (s : RiskLimits) : LOp → RiskLimits
  | LOp.updatePos now sz => update_position_size now s sz
  | LOp.updateLoss l => update_trade_loss s l
  | LOp.checkDaily => (check_daily_loss_limit s).2
  | LOp.checkRate now => (check_order_rate now s).2
  | LOp.evalRisk now => (evaluate_risk now s).2
  | LOp.closePos now v => close_position now s v

/-- Run a sequence of non-reset operations. -/
def runLOps (s : RiskLimits) (ops : List LOp) : RiskLimits :=
  ops.foldl applyLOp s

end Limits

namespace RM

/-- Trade record as consumed by `RiskManager` (src/execution/risk_manager.py):
a dict with `symbol`, `profit` and `loss` entries. -/
structure Trade where
  symbol : String
  profit : Int
  loss : Int
  deriving Repr, DecidableEq

/-- Custom risk limit entry: a dict with `name`, `metric` and `value`. -/
structure CustomLimit where
  name : String
  metric : String
  value : Int
  deriving Repr, DecidableEq

/-- Per-symbol entry of `trade_metrics`. -/
structure TradeMetrics where
  total_trades : Nat
  total_profit : Int
  total_loss : Int
  deriving Repr, DecidableEq

/--
State of class `RiskManager` (src/execution/risk_manager.py, `__init__`).
Python dicts keyed by symbol become association lists in insertion order
(a Python dict preserves insertion order, and adding to an existing key
keeps its position); `start_of_day` is a day number.
-/
structure RiskManager where
  max_position_size : Int
  max_daily_loss : Int
  risk_limits : List CustomLimit
  current_position_size : Int
  current_loss : Int
  trade_history : List Trade
  daily_loss_tracker : List (String × Int)
  position_tracker : List (String × Int)
  trade_metrics : List (String × TradeMetrics)
  start_of_day : Nat
  deriving Repr, DecidableEq

/-- Dict update `d.setdefault(k, 0); d[k] += v` on an insertion-ordered
association list: add onto an existing key in place, or append the new
key at the end. -/
def assocAdd : List (String × Int) → String → Int → List (String × Int)
  | [], sym, v => [(sym, v)]
  | (k, w) :: rest, sym, v =>
      if k = sym then (k, w + v) :: rest else (k, w) :: assocAdd rest sym v

/-- Dict lookup with the given default. -/
def lookupD (l : List (String × Int)) (k : String) (dflt : Int) : Int :=
  match l.find? (fun p => p.1 = k) with
  | some p => p.2
  | none => dflt

/-- Method `update_position`: ensure the symbol is tracked, add the change
to its entry and to the aggregate `current_position_size`. -/
def update_position (m : RiskManager) (position_change : Int) (symbol : String) : RiskManager :=
  { m with position_tracker := assocAdd m.position_tracker symbol position_change
           current_position_size := m.current_position_size + position_change }

/-- Method `_update_daily_loss`: clear the tracker when the wall-clock day
advanced past `start_of_day`, then accumulate the loss under the symbol. -/
def update_daily_loss (today : Nat) (m : RiskManager) (symbol : String) (loss : Int) : RiskManager :=
  let m1 :=
    if today ≠ m.start_of_day then
      { m with daily_loss_tracker := [], start_of_day := today }
    else m
  { m1 with daily_loss_tracker := assocAdd m1.daily_loss_tracker symbol loss }

/-- Metrics update of `_track_trade_metrics` on the association list. -/
def metricsAdd : List (String × TradeMetrics) → String → Trade → List (String × TradeMetrics)
  | [], sym, t => [(sym, { total_trades := 1, total_profit := t.profit, total_loss := t.loss })]
  | (k, w) :: rest, sym, t =>
      if k = sym then
        (k, { total_trades := w.total_trades + 1
              total_profit := w.total_profit + t.profit
              total_loss := w.total_loss + t.loss }) :: rest
      else (k, w) :: metricsAdd rest sym t

/-- Method `record_trade`: append to history, accumulate `current_loss`,
then update the per-symbol daily loss and trade metrics. -/
def record_trade (today : Nat) (m : RiskManager) (trade : Trade) : RiskManager :=
  let m1 := { m with trade_history := m.trade_history ++ [trade]
                     current_loss := m.current_loss + trade.loss }
  let m2 := update_daily_loss today m1 trade.symbol trade.loss
  { m2 with trade_metrics := metricsAdd m2.trade_metrics trade.symbol trade }

/-- Fold of `_calculate_max_drawdown`: the running `peak` starts at
`float('-inf')`, modelled by `none` so that the first trade's profit
becomes the peak; `max_drawdown` accumulates `peak - profit`.  Note that
the source takes maxima of the raw per-trade `profit` values, not of
their running sum. -/
def mdd_go : Option Int → Int → List Trade → Int
  | _, max_drawdown, [] => max_drawdown
  | peak?, max_drawdown, t :: rest =>
      let p := match peak? with
        | none => t.profit
        | some q => max q t.profit
      mdd_go (some p) (max max_drawdown (p - t.profit)) rest

/-- Method `_calculate_max_drawdown` over a trade history. -/
def calculate_max_drawdown (ts : List Trade) : Int :=
  mdd_go none 0 ts

/-- Identifier of a rule reported (via `logging.error`) by
`check_risk_limits` when it is the violation that stops the check. -/
inductive RuleName where
  | posSize
  | dailyLoss
  | custom (name : String)
  deriving Repr, DecidableEq

/--
Method `_calculate_metric`.  The `max_drawdown` branch is exact integer
arithmetic and is embedded directly; the `volatility` and `sharpe_ratio`
branches compute with floating-point square roots and division, which have
no exact shallow embedding, so their values are abstracted as the
parameter `fm` (no claim under verification depends on those values — only
on the dispatch and comparison structure around them).  Unknown metric
names yield 0 as in the source.
-/
def calculate_metric (fm : String → List Trade → Int) (metric_name : String)
    (hist : List Trade) : Int :=
  if metric_name = "max_drawdown" then calculate_max_drawdown hist
  else if metric_name = "volatility" then fm "volatility" hist
  else if metric_name = "sharpe_ratio" then fm "sharpe_ratio" hist
  else 0

/-- Method `_check_custom_limit`: the metric value must be at most the
limit's value. -/
def check_custom_limit (fm : String → List Trade → Int) (m : RiskManager)
    (limit : CustomLimit) : Bool :=
  decide (calculate_metric fm limit.metric m.trade_history ≤ limit.value)

/-- The `for limit in self.risk_limits` loop of `check_risk_limits`:
return `false` together with the name of the first failing custom limit
(the one whose violation is logged), or `true` with no report. -/
def custom_limits_loop (fm : String → List Trade → Int) (m : RiskManager) :
    List CustomLimit → Bool × List RuleName
  | [] => (true, [])
  | l :: rest =>
      if !check_custom_limit fm m l then (false, [RuleName.custom l.name])
      else custom_limits_loop fm m rest

/-- Method `check_risk_limits`: aggregate position size first, daily loss
second, then each custom limit in order; the method returns `False` at the
first violated rule (logging only that rule) and `True` when none is
violated.  The second component records which violations were reported. -/
def check_risk_limits (fm : String → List Trade → Int) (m : RiskManager) :
    Bool × List RuleName :=
  if |m.current_position_size| > m.max_position_size then (false, [RuleName.posSize])
  else if m.current_loss > m.max_daily_loss then (false, [RuleName.dailyLoss])
  else custom_limits_loop fm m m.risk_limits

/-- Method `reset_risk`: zero the aggregate position and loss, clear
history, daily losses and metrics.  `position_tracker` is not touched. -/
def reset_risk (m : RiskManager) : RiskManager :=
  { m with current_position_size := 0
           current_loss := 0
           trade_history := []
           daily_loss_tracker := []
           trade_metrics := [] }

/-- Method `_enforce_stop_loss`: when the accumulated loss reaches
`max_daily_loss` the source halts the session AND calls `reset_risk()`
itself, returning `True`; otherwise the state is untouched. -/
def enforce_stop_loss (m : RiskManager) : Bool × RiskManager :=
  if m.current_loss ≥ m.max_daily_loss then (true, reset_risk m) else (false, m)

/-- Method `_enforce_position_limits`: every tracked symbol must be within
the (per-symbol) position limit. -/
def enforce_position_limits (m : RiskManager) : Bool :=
  m.position_tracker.all (fun p => !(|p.2| > m.max_position_size))

/-- Method `real_time_risk_monitoring`: position limits, then stop-loss
enforcement (which may itself reset the state), then the limit check. -/
def real_time_risk_monitoring (fm : String → List Trade → Int) (m : RiskManager) :
    Bool × RiskManager :=
  if !enforce_position_limits m then (false, m)
  else
    let r := enforce_stop_loss m
    if r.1 then (false, r.2)
    else ((check_risk_limits fm r.2).1, r.2)

/-- Sum of the per-symbol entries of a tracker. -/
def position_sum (l : List (String × Int)) : Int :=
  (l.map (fun p => p.2)).sum

end RM

namespace Monitoring

/-- One enforcement action performed by `trigger_risk_alert`
(src/risk_management/real_time_monitoring.py). -/
inductive EnfAction where
  | halt
  | liquidate
  | alert (message : String)
  deriving Repr, DecidableEq

/--
Snapshot of `RealTimeRiskMonitor` as seen by `check_risk_limits`:
exposure and PnL aggregates computed by `monitor_risk`, plus the limit
configuration dict (`max_position_size`, `max_loss`,
`max_exposure_by_asset_class`).  Values are exact integers.
-/
structure MonitorState where
  total_exposure : Int
  total_pnl : Int
  exposure_by_asset_class : List (String × Int)
  max_position_size : Int
  max_loss : Int
  max_exposure_by_asset_class : List (String × Int)
  deriving Repr, DecidableEq

/-- Method `trigger_risk_alert`: unconditionally halts, liquidates and
sends the alert, in that order, every time it is called.  It reads or
writes no monitor state. -/
def trigger_risk_alert (message : String) : List EnfAction :=
  [EnfAction.halt, EnfAction.liquidate, EnfAction.alert message]

/-- The breach conditions tested by method `check_risk_limits`, in source
order; each satisfied condition produces one `trigger_risk_alert` call
with the corresponding message.  The three `if`s are independent (no
short-circuit between them). -/
def breachMessages (m : MonitorState) : List String :=
  (if m.total_exposure > m.max_position_size then ["Max position size exceeded"] else []) ++
  (if m.total_pnl < m.max_loss then ["Max loss threshold breached"] else []) ++
  ((m.exposure_by_asset_class.filter
      (fun p => RM.lookupD m.max_exposure_by_asset_class p.1 0 < p.2)).map
    (fun p => "Max exposure in " ++ p.1 ++ " exceeded"))

/-- Concatenate the enforcement actions of one `trigger_risk_alert` call
per breach message. -/
def actionsFor : List String → List EnfAction
  | [] => []
  | msg :: rest => trigger_risk_alert msg ++ actionsFor rest

/-- Method `check_risk_limits` of the monitor, as the list of enforcement
actions it performs on one evaluation. -/
def check_risk_limits (m : MonitorState) : List EnfAction :=
  actionsFor (breachMessages m)

/-- `k` consecutive evaluation cycles of `monitor_risk` over an unchanged
market snapshot (the enforcement actions only log; none of them mutates
the monitor state or any halt flag, so each cycle re-evaluates the same
state). -/
def monitor_ticks : Nat → MonitorState → List EnfAction
  | 0, _ => []
  | k + 1, m => check_risk_limits m ++ monitor_ticks k m

/-- Number of `liquidate_positions` calls in an action trace. -/
def countLiquidations (acts : List EnfAction) : Nat :=
  (acts.filter (fun a => match a with | EnfAction.liquidate => true | _ => false)).length

/-- Number of `send_alert` calls in an action trace. -/
def countAlerts (acts : List EnfAction) : Nat :=
  (acts.filter (fun a => match a with | EnfAction.alert _ => true | _ => false)).length

end Monitoring

/-- Prefix maxima of a series continued from a prior peak `q`: entry `j`
is the maximum of `q` and the first `j+1` elements. -/
def runningMaxFrom (q : Int) : List Int → List Int
  | [] => []
  | x :: xs => max q x :: runningMaxFrom (max q x) xs

/-- Prefix maxima of a series (`peak so far` at every index). -/
def runningMax : List Int → List Int
  | [] => []
  | x :: xs => x :: runningMaxFrom x xs

/-- Largest peak-to-current decline of a series: the maximum over all
indices of (maximum so far minus current value), and 0 for the empty
series. -/
def maxDecline (xs : List Int) : Int :=
  (List.zipWith (fun a b => a - b) (runningMax xs) xs).foldl max 0

/-- Running sums of a series starting from `acc` (cumulative profit). -/
def cumulativeProfits (acc : Int) : List Int → List Int
  | [] => []
  | x :: xs => (acc + x) :: cumulativeProfits (acc + x) xs

/-- The spec's definition of max drawdown, stated in its words: the
largest peak-to-current decline of the CUMULATIVE trade profit series
(running sum of per-trade profits).  Defined from the spec sentence, to be
compared with the source's `RM.calculate_max_drawdown`. -/
def spec_cumulative_drawdown (profits : List Int) : Int :=
  maxDecline (cumulativeProfits 0 profits)

/-- Freshly initialised `RiskLimits` object with an order-rate ceiling of
2 per minute (the other limits are the values of the module's usage
example). -/
def sampleRateLimiter : Limits.RiskLimits :=
  Limits.RiskLimits.init 100000 50000 10000 (-20000) 2

/-- A `RiskLimits` state mid-stream: one order observed at second 0. -/
def sampleRate : Limits.RiskLimits :=
  { Limits.RiskLimits.init 100000 50000 10000 (-20000) 5 with
      last_order_time := some 0, orders_this_minute := 1 }

/-- A `RiskLimits` state with accumulated losses and the sticky daily
breach flag raised. -/
def sampleDirty : Limits.RiskLimits :=
  { Limits.RiskLimits.init 100000 50000 10000 (-20000) 5 with
      current_loss_per_day := 99999, current_trade_loss := 777,
      daily_limit_breached := true }

/-- A `RiskManager` holding an open 5-share AAPL position, with the
aggregate in sync with the per-symbol tracker. -/
def sampleRM : RM.RiskManager :=
  { max_position_size := 1000
    max_daily_loss := 5000
    risk_limits := []
    current_position_size := 5
    current_loss := 0
    trade_history := []
    daily_loss_tracker := []
    position_tracker := [("AAPL", 5)]
    trade_metrics := []
    start_of_day := 0 }

/-- A `RiskManager` holding two canceling nonzero positions (A at +5 and
B at -5), with the aggregate (0) in sync with the per-symbol tracker. -/
def hedgedRM : RM.RiskManager :=
  { max_position_size := 1000
    max_daily_loss := 5000
    risk_limits := []
    current_position_size := 0
    current_loss := 0
    trade_history := []
    daily_loss_tracker := []
    position_tracker := [("A", 5), ("B", -5)]
    trade_metrics := []
    start_of_day := 0 }

/-- A `RiskManager` violating both the aggregate position-size rule
(11 over a limit of 10) and the daily-loss rule (11 over a limit of 10),
with no custom limits. -/
def overLimitRM : RM.RiskManager :=
  { max_position_size := 10
    max_daily_loss := 10
    risk_limits := []
    current_position_size := 11
    current_loss := 11
    trade_history := []
    daily_loss_tracker := []
    position_tracker := []
    trade_metrics := []
    start_of_day := 0 }

/-- A `RiskManager` whose accumulated loss (6) has breached the daily
limit (5); positions are within bounds and there are no custom limits. -/
def breachedRM : RM.RiskManager :=
  { max_position_size := 10
    max_daily_loss := 5
    risk_limits := []
    current_position_size := 0
    current_loss := 6
    trade_history := []
    daily_loss_tracker := []
    position_tracker := []
    trade_metrics := []
    start_of_day := 0 }

/-- A monitor snapshot whose total exposure (11) breaches the position
limit (10) while the PnL condition is quiet. -/
def breachedMonitor : Monitoring.MonitorState :=
  { total_exposure := 11
    total_pnl := 0
    exposure_by_asset_class := []
    max_position_size := 10
    max_loss := -100
    max_exposure_by_asset_class := [] }

/-- Stand-in for the floating-point metrics (volatility, Sharpe) in
concrete evaluations; its value is irrelevant to every statement below. -/
def zeroMetric : String → List RM.Trade → Int := fun _ _ => 0




/-! Helper lemmas about the order-rate limiter. -/

theorem order_rate_update_last (now : Nat) (s : Limits.RiskLimits) :
    (Limits.order_rate_update now s).last_order_time = some now := by
  unfold Limits.order_rate_update
  cases h : s.last_order_time with
  | none => rfl
  | some t =>
      by_cases h2 : (now - t) % 86400 < 60 <;> simp [h2]

theorem check_order_rate_state (now : Nat) (s : Limits.RiskLimits) :
    (Limits.check_order_rate now s).2 = Limits.order_rate_update now s := by
  unfold Limits.check_order_rate
  by_cases h : (Limits.order_rate_update now s).orders_this_minute > s.max_orders_per_minute <;>
    simp [h]

/-- C4, amended: `check_order_rate` does not inspect a trailing 60-second
window.  It keeps a single counter: the counter is incremented when the
gap (in seconds, modulo one day) since the previous recorded order is
below 60 and restarts at 1 otherwise (also on the first order); the call
passes iff the updated counter is at most `max_orders_per_minute`, and it
always records the current timestamp as `last_order_time`. -/
theorem C4_amended (now : Nat) (s : Limits.RiskLimits) :
    ((Limits.check_order_rate now s).1 = true ↔
      (Limits.check_order_rate now s).2.orders_this_minute ≤ s.max_orders_per_minute) ∧
    (Limits.check_order_rate now s).2.last_order_time = some now ∧
    (s.last_order_time = none →
      (Limits.check_order_rate now s).2.orders_this_minute = 1) ∧
    (∀ t, s.last_order_time = some t → (now - t) % 86400 < 60 →
      (Limits.check_order_rate now s).2.orders_this_minute = s.orders_this_minute + 1) ∧
    (∀ t, s.last_order_time = some t → 60 ≤ (now - t) % 86400 →
      (Limits.check_order_rate now s).2.orders_this_minute = 1) := by
  refine ⟨?_, ?_, ?_, ?_, ?_⟩
  · by_cases h : (Limits.order_rate_update now s).orders_this_minute > s.max_orders_per_minute
    · simp only [Limits.check_order_rate, h, if_true]
      constructor
      · intro hc
        exact absurd hc (by simp)
      · intro hc
        omega
    · simp only [Limits.check_order_rate, h, if_false]
      constructor
      · intro _
        omega
      · intro _
        trivial
  · rw [check_order_rate_state]
    exact order_rate_update_last now s
  · intro h
    rw [check_order_rate_state]
    simp [Limits.order_rate_update, h]
  · intro t h hlt
    rw [check_order_rate_state]
    simp [Limits.order_rate_update, h, hlt]
  · intro t h hge
    have hlt : ¬ (now - t) % 86400 < 60 := by omega
    rw [check_order_rate_state]
    simp [Limits.order_rate_update, h, hlt]

/-- Witness for C4_amended at concrete inputs: with one order recorded at
second 0, a second order at second 10 increments the counter, while an
order at second 70 restarts it at 1. -/
theorem C4_amended_witness :
    (Limits.check_order_rate 10 sampleRate).2.orders_this_minute
        = sampleRate.orders_this_minute + 1 ∧
    (Limits.check_order_rate 70 sampleRate).2.orders_this_minute = 1 :=
  ⟨(C4_amended 10 sampleRate).2.2.2.1 0 rfl (by decide),
   (C4_amended 70 sampleRate).2.2.2.2 0 rfl (by decide)⟩

/-- C4, counterexample to the claim as stated: with
`max_orders_per_minute = 2` and orders at seconds 0, 50 and 100, the call
at second 100 fails although only 2 order timestamps (50 and 100) lie in
the trailing 60-second window, so a call does NOT pass iff the trailing
window holds at most `max_orders_per_minute` orders. -/
theorem C4_counterexample :
    Limits.ordersInWindow [0, 50, 100] 100 ≤ 2 ∧
    (Limits.run_order_calls [0, 50, 100] sampleRateLimiter).1 = [true, true, false] := by
  decide

/-! Position-size boundary (claim C5). -/

theorem custom_loop_report (fm : String → List RM.Trade → Int) (m : RM.RiskManager) :
    ∀ ls : List RM.CustomLimit, (RM.custom_limits_loop fm m ls).2 = [] ∨
      ∃ n, (RM.custom_limits_loop fm m ls).2 = [RM.RuleName.custom n] := by
  intro ls
  induction ls with
  | nil => exact Or.inl rfl
  | cons l rest ih =>
      by_cases h : RM.check_custom_limit fm m l
      · simpa [RM.custom_limits_loop, h] using ih
      · exact Or.inr ⟨l.name, by simp [RM.custom_limits_loop, h]⟩

/-- C5: the position-size limit is inclusive on both implementations.  In
`RiskManager.check_risk_limits` the position-size rule is reported as
violated iff the absolute aggregate position strictly exceeds
`max_position_size` (so an exposure exactly at the limit passes and one
unit over fails), and `RiskLimits.can_take_position` rejects a prospective
position iff the absolute resulting aggregate strictly exceeds
`max_position_size`. -/
theorem C5_inclusive_boundary :
    (∀ (fm : String → List RM.Trade → Int) (m : RM.RiskManager),
        RM.RuleName.posSize ∈ (RM.check_risk_limits fm m).2 ↔
          m.max_position_size < |m.current_position_size|) ∧
    (∀ (s : Limits.RiskLimits) (position_size : Int),
        Limits.can_take_position s position_size = false ↔
          s.max_position_size < |s.current_position_size + position_size|) := by
  constructor
  · intro fm m
    unfold RM.check_risk_limits
    by_cases h1 : |m.current_position_size| > m.max_position_size
    · rw [if_pos h1]
      simpa using h1
    · rw [if_neg h1]
      by_cases h2 : m.current_loss > m.max_daily_loss
      · rw [if_pos h2]
        simp [h1]
      · rw [if_neg h2]
        rcases custom_loop_report fm m m.risk_limits with h | ⟨n, h⟩
        · rw [h]
          simp [h1]
        · rw [h]
          simp [h1]
  · intro s position_size
    unfold Limits.can_take_position
    by_cases h : |s.current_position_size + position_size| > s.max_position_size
    · rw [if_pos h]
      simpa using h
    · rw [if_neg h]
      simpa using h

/-! Reset-then-check (claim C7). -/

/-- C7: for every prior tracker state (and any nonnegative daily-loss
budget), `reset_daily_limits()` followed immediately by
`check_daily_loss_limit()` passes and leaves the sticky breach flag
cleared, regardless of losses or breaches recorded before the reset. -/
theorem C7_reset_then_check (s : Limits.RiskLimits) (h : 0 ≤ s.max_loss_per_day) :
    (Limits.check_daily_loss_limit (Limits.reset_daily_limits s)).1 = true ∧
    (Limits.check_daily_loss_limit (Limits.reset_daily_limits s)).2.daily_limit_breached
      = false := by
  have hc : ¬ |(Limits.reset_daily_limits s).current_loss_per_day|
      > (Limits.reset_daily_limits s).max_loss_per_day := by
    simp [Limits.reset_daily_limits]
    omega
  unfold Limits.check_daily_loss_limit
  rw [if_neg hc]
  exact ⟨rfl, rfl⟩

/-- Witness for C7 on a state with accumulated losses and the breach flag
raised. -/
theorem C7_reset_then_check_witness :
    (Limits.check_daily_loss_limit (Limits.reset_daily_limits sampleDirty)).1 = true ∧
    (Limits.check_daily_loss_limit (Limits.reset_daily_limits sampleDirty)).2.daily_limit_breached
      = false :=
  C7_reset_then_check sampleDirty (by decide)

/-! Trade-loss accumulation (claim C8). -/

/-- C8, counterexample to the claim as stated: two successive
`update_trade_loss` calls with loss 1 leave `current_trade_loss = 2`, not
the most recent trade's loss 1 — the counter accumulates rather than being
reset to the new value on each call. -/
theorem C8_counterexample :
    (Limits.update_trade_loss (Limits.update_trade_loss
        (Limits.RiskLimits.init 100000 50000 10000 (-20000) 5) 1) 1).current_trade_loss = 2 ∧
    (Limits.update_trade_loss (Limits.update_trade_loss
        (Limits.RiskLimits.init 100000 50000 10000 (-20000) 5) 1) 1).current_trade_loss ≠ 1 := by
  decide

/-- C8, amended: `update_trade_loss` accumulates BOTH counters with `+=`:
over every sequence of calls, `current_trade_loss` and
`current_loss_per_day` each equal their initial value plus the sum of all
recorded losses (neither is reset to the latest loss). -/
theorem C8_amended (s : Limits.RiskLimits) (losses : List Int) :
    ((losses.foldl Limits.update_trade_loss s).current_trade_loss
        = s.current_trade_loss + losses.sum) ∧
    ((losses.foldl Limits.update_trade_loss s).current_loss_per_day
        = s.current_loss_per_day + losses.sum) := by
  induction losses generalizing s with
  | nil => simp
  | cons l rest ih =>
      simp only [List.foldl_cons, List.sum_cons]
      constructor
      · rw [(ih (Limits.update_trade_loss s l)).1]
        simp only [Limits.update_trade_loss]
        omega
      · rw [(ih (Limits.update_trade_loss s l)).2]
        simp only [Limits.update_trade_loss]
        omega

/-! Evaluation mutates the rate limiter (claim C10). -/

theorem check_daily_pass_state (s : Limits.RiskLimits)
    (h : (Limits.check_daily_loss_limit s).1 = true) :
    (Limits.check_daily_loss_limit s).2 = s := by
  by_cases hc : |s.current_loss_per_day| > s.max_loss_per_day
  · rw [Limits.check_daily_loss_limit, if_pos hc] at h
    simp at h
  · rw [Limits.check_daily_loss_limit, if_neg hc]

/-- C10: `evaluate_risk` is not read-only.  Whenever the daily-loss check
passes, the evaluation invokes `check_order_rate`, so the resulting state
records the evaluation time as `last_order_time` and carries exactly the
order counter produced by `check_order_rate` — each risk evaluation is
counted against the per-minute order budget even when no order is
submitted. -/
theorem C10_evaluate_mutates_rate (now : Nat) (s : Limits.RiskLimits)
    (h : (Limits.check_daily_loss_limit s).1 = true) :
    (Limits.evaluate_risk now s).2.last_order_time = some now ∧
    (Limits.evaluate_risk now s).2.orders_this_minute
      = (Limits.check_order_rate now s).2.orders_this_minute := by
  have hs : (Limits.check_daily_loss_limit s).2 = s := check_daily_pass_state s h
  have hst : (Limits.evaluate_risk now s).2 = (Limits.check_order_rate now s).2 := by
    unfold Limits.evaluate_risk
    simp only [h, hs, Bool.not_true, Bool.false_eq_true, if_false]
    by_cases h2 : (Limits.check_order_rate now s).1 <;> simp [h2]
  refine ⟨?_, ?_⟩
  · rw [hst, check_order_rate_state]
    exact order_rate_update_last now s
  · rw [hst]

/-- Witness for C10 on a fresh limiter state evaluated at second 5. -/
theorem C10_evaluate_mutates_rate_witness :
    (Limits.evaluate_risk 5 sampleRateLimiter).2.last_order_time = some 5 ∧
    (Limits.evaluate_risk 5 sampleRateLimiter).2.orders_this_minute
      = (Limits.check_order_rate 5 sampleRateLimiter).2.orders_this_minute :=
  C10_evaluate_mutates_rate 5 sampleRateLimiter (by decide)

/-! Position tracker versus reset (claim C9). -/

theorem assocAdd_sum (l : List (String × Int)) (sym : String) (v : Int) :
    RM.position_sum (RM.assocAdd l sym v) = RM.position_sum l + v := by
  induction l with
  | nil => simp [RM.assocAdd, RM.position_sum]
  | cons p rest ih =>
      obtain ⟨k, w⟩ := p
      by_cases h : k = sym
      · simp [RM.assocAdd, RM.position_sum, h]
        omega
      · simp only [RM.assocAdd, h, if_false]
        simp only [RM.position_sum, List.map_cons, List.sum_cons] at *
        omega

/-- C9, counterexample to the claim as stated: a manager with canceling
per-symbol positions (A at +5, B at -5, both nonzero) satisfies the
invariant before the reset, and `reset_risk` — which keeps the tracker and
zeroes the aggregate — leaves the invariant HOLDING (0 = 5 + (-5)), so
"broken whenever any per-symbol position is nonzero at the reset" is
false. -/
theorem C9_counterexample :
    RM.lookupD hedgedRM.position_tracker "A" 0 ≠ 0 ∧
    RM.lookupD hedgedRM.position_tracker "B" 0 ≠ 0 ∧
    hedgedRM.current_position_size = RM.position_sum hedgedRM.position_tracker ∧
    (RM.reset_risk hedgedRM).current_position_size
      = RM.position_sum ((RM.reset_risk hedgedRM).position_tracker) := by
  decide

/-- C9, amended: `reset_risk` zeroes the aggregate `current_position_size`
and clears `trade_history`, `daily_loss_tracker` and `trade_metrics`, but
leaves `position_tracker` untouched.  `update_position` preserves the
invariant that the aggregate equals the sum of the per-symbol tracker, and
after a `reset_risk` the invariant holds IFF the tracked positions sum to
zero — so the reset breaks the invariant exactly when the per-symbol
entries sum to a nonzero value (nonzero but canceling positions leave it
intact). -/
theorem C9_reset_and_invariant :
    (∀ (m : RM.RiskManager) (d : Int) (sym : String),
        m.current_position_size = RM.position_sum m.position_tracker →
        (RM.update_position m d sym).current_position_size
          = RM.position_sum (RM.update_position m d sym).position_tracker) ∧
    (∀ m : RM.RiskManager,
        (RM.reset_risk m).position_tracker = m.position_tracker ∧
        (RM.reset_risk m).current_position_size = 0 ∧
        (RM.reset_risk m).trade_history = [] ∧
        (RM.reset_risk m).daily_loss_tracker = [] ∧
        (RM.reset_risk m).trade_metrics = []) ∧
    (∀ m : RM.RiskManager,
        ((RM.reset_risk m).current_position_size
            = RM.position_sum ((RM.reset_risk m).position_tracker) ↔
          RM.position_sum m.position_tracker = 0)) := by
  refine ⟨?_, ?_, ?_⟩
  · intro m d sym hInv
    simp [RM.update_position, assocAdd_sum, hInv]
  · intro m
    exact ⟨rfl, rfl, rfl, rfl, rfl⟩
  · intro m
    simp only [RM.reset_risk]
    constructor
    · intro hc
      omega
    · intro hc
      omega

/-- Witness for C9 on a manager holding a 5-share AAPL position: a fill of
3 preserves the invariant, and after a reset the invariant is equivalent
to the tracker summing to zero. -/
theorem C9_reset_and_invariant_witness :
    (RM.update_position sampleRM 3 "AAPL").current_position_size
      = RM.position_sum (RM.update_position sampleRM 3 "AAPL").position_tracker ∧
    ((RM.reset_risk sampleRM).current_position_size
        = RM.position_sum ((RM.reset_risk sampleRM).position_tracker) ↔
      RM.position_sum sampleRM.position_tracker = 0) :=
  ⟨C9_reset_and_invariant.1 sampleRM 3 "AAPL" (by decide),
   C9_reset_and_invariant.2.2 sampleRM⟩

/-! Short-circuiting of the limit check (claim C2). -/

theorem custom_loop_pass (fm : String → List RM.Trade → Int) (m : RM.RiskManager) :
    ∀ ls : List RM.CustomLimit,
      ((RM.custom_limits_loop fm m ls).1 = true ↔
        ∀ l ∈ ls, RM.check_custom_limit fm m l = true) := by
  intro ls
  induction ls with
  | nil => simp [RM.custom_limits_loop]
  | cons l rest ih =>
      by_cases h : RM.check_custom_limit fm m l = true
      · simp [RM.custom_limits_loop, h, ih]
      · simp [RM.custom_limits_loop, h]

/-- C2, amended: `check_risk_limits` short-circuits.  It returns `True`
exactly when no rule is violated — aggregate position within
`max_position_size`, daily loss within `max_daily_loss`, and every custom
limit satisfied — but on failure it stops at the FIRST violated rule and
reports (logs) only that rule, so the report never holds more than one
entry even when several rules are violated simultaneously.  (Per-symbol
position size and order rate are not checked by this method at all; they
live in `_enforce_position_limits` and `limits.check_order_rate`.) -/
theorem C2_amended (fm : String → List RM.Trade → Int) (m : RM.RiskManager) :
    ((RM.check_risk_limits fm m).1 = true ↔
      (|m.current_position_size| ≤ m.max_position_size ∧
       m.current_loss ≤ m.max_daily_loss ∧
       ∀ l ∈ m.risk_limits, RM.check_custom_limit fm m l = true)) ∧
    ((RM.check_risk_limits fm m).2.length ≤ 1) := by
  constructor
  · unfold RM.check_risk_limits
    by_cases h1 : |m.current_position_size| > m.max_position_size
    · rw [if_pos h1]
      constructor
      · intro hfalse
        exact absurd hfalse (by simp)
      · rintro ⟨hA, -, -⟩
        exact absurd hA (by omega)
    · rw [if_neg h1]
      by_cases h2 : m.current_loss > m.max_daily_loss
      · rw [if_pos h2]
        constructor
        · intro hfalse
          exact absurd hfalse (by simp)
        · rintro ⟨-, hB, -⟩
          exact absurd hB (by omega)
      · rw [if_neg h2, custom_loop_pass fm m m.risk_limits]
        have hA : |m.current_position_size| ≤ m.max_position_size := by omega
        have hB : m.current_loss ≤ m.max_daily_loss := by omega
        simp [hA, hB]
  · unfold RM.check_risk_limits
    by_cases h1 : |m.current_position_size| > m.max_position_size
    · rw [if_pos h1]
      simp
    · rw [if_neg h1]
      by_cases h2 : m.current_loss > m.max_daily_loss
      · rw [if_pos h2]
        simp
      · rw [if_neg h2]
        rcases custom_loop_report fm m m.risk_limits with h | ⟨n, h⟩ <;> simp [h]

/-- C2, counterexample to the claim as stated: on a state violating both
the aggregate position-size rule and the daily-loss rule, the verdict
reports only the position-size rule — the daily-loss violation is present
but unreported, so the evaluation does not collect all violated rules. -/
theorem C2_counterexample :
    (RM.check_risk_limits zeroMetric overLimitRM).2 = [RM.RuleName.posSize] ∧
    overLimitRM.max_daily_loss < overLimitRM.current_loss := by
  decide

/-! Max drawdown semantics (claim C6). -/

theorem mdd_go_eq (xs : List RM.Trade) : ∀ q a : Int,
    RM.mdd_go (some q) a xs =
      (List.zipWith (fun u v => u - v)
        (runningMaxFrom q (xs.map RM.Trade.profit)) (xs.map RM.Trade.profit)).foldl max a := by
  induction xs with
  | nil => intro q a; rfl
  | cons t rest ih =>
      intro q a
      simp only [RM.mdd_go, List.map_cons, runningMaxFrom, List.zipWith_cons_cons,
        List.foldl_cons]
      exact ih (max q t.profit) (max a (max q t.profit - t.profit))

/-- C6, amended: the source's `_calculate_max_drawdown` equals the largest
peak-to-current decline of the RAW per-trade profit series (maximum over
all indices of the running maximum of `profit` minus the current
`profit`), not of the cumulative (running-sum) profit series. -/
theorem C6_amended (ts : List RM.Trade) :
    RM.calculate_max_drawdown ts = maxDecline (ts.map RM.Trade.profit) := by
  cases ts with
  | nil => rfl
  | cons t rest =>
      simp only [RM.calculate_max_drawdown, RM.mdd_go, maxDecline, List.map_cons, runningMax,
        List.zipWith_cons_cons, List.foldl_cons]
      rw [mdd_go_eq]

/-- C6, counterexample to the claim as stated: for trades with profits 1
then -1 the source computes a drawdown of 2 (peak per-trade profit 1 minus
current per-trade profit -1), while the largest peak-to-current decline of
the cumulative profit series [1, 0] is 1. -/
theorem C6_counterexample :
    RM.calculate_max_drawdown
        [{ symbol := "A", profit := 1, loss := 0 },
         { symbol := "A", profit := -1, loss := 0 }] = 2 ∧
    spec_cumulative_drawdown [1, -1] = 1 := by
  decide

/-! Persistence of the halt/breach state (claim C3). -/

theorem check_daily_breached_mono (s : Limits.RiskLimits)
    (h : s.daily_limit_breached = true) :
    (Limits.check_daily_loss_limit s).2.daily_limit_breached = true := by
  unfold Limits.check_daily_loss_limit
  split
  · rfl
  · exact h

theorem order_rate_breached (now : Nat) (s : Limits.RiskLimits) :
    (Limits.check_order_rate now s).2.daily_limit_breached = s.daily_limit_breached := by
  rw [check_order_rate_state]
  unfold Limits.order_rate_update
  cases h : s.last_order_time with
  | none => rfl
  | some t => by_cases h2 : (now - t) % 86400 < 60 <;> simp [h2]

theorem evaluate_risk_state (now : Nat) (s : Limits.RiskLimits) :
    (Limits.evaluate_risk now s).2 = (Limits.check_daily_loss_limit s).2 ∨
    (Limits.evaluate_risk now s).2
      = (Limits.check_order_rate now (Limits.check_daily_loss_limit s).2).2 := by
  unfold Limits.evaluate_risk
  by_cases h1 : (Limits.check_daily_loss_limit s).1 <;>
    by_cases h2 : (Limits.check_order_rate now (Limits.check_daily_loss_limit s).2).1 <;>
      simp [h1, h2]

theorem applyLOp_breached (s : Limits.RiskLimits) (op : Limits.LOp)
    (h : s.daily_limit_breached = true) :
    (Limits.applyLOp s op).daily_limit_breached = true := by
  cases op with
  | updatePos now sz => exact h
  | updateLoss l => exact h
  | checkDaily => exact check_daily_breached_mono s h
  | checkRate now =>
      show (Limits.check_order_rate now s).2.daily_limit_breached = true
      rw [order_rate_breached]
      exact h
  | evalRisk now =>
      show (Limits.evaluate_risk now s).2.daily_limit_breached = true
      rcases evaluate_risk_state now s with he | he
      · rw [he]
        exact check_daily_breached_mono s h
      · rw [he, order_rate_breached]
        exact check_daily_breached_mono s h
  | closePos now v => exact h

/-- C3, amended: within `limits.RiskLimits` the sticky breach flag indeed
never clears automatically — once `daily_limit_breached` is raised, every
sequence of non-reset operations (position and loss updates, checks,
evaluations, position closes) leaves it raised, and only the explicit
`reset_daily_limits` clears it.  However, in `RiskManager` the halt is NOT
manual-reset-only: `_enforce_stop_loss` automatically invokes
`reset_risk()` whenever `current_loss` reaches `max_daily_loss`, clearing
the loss and history that caused the halt with no operator action. -/
theorem C3_amended :
    (∀ (ops : List Limits.LOp) (s : Limits.RiskLimits),
        s.daily_limit_breached = true →
        (Limits.runLOps s ops).daily_limit_breached = true) ∧
    (∀ m : RM.RiskManager, m.max_daily_loss ≤ m.current_loss →
        (RM.enforce_stop_loss m).1 = true ∧
        (RM.enforce_stop_loss m).2.current_loss = 0 ∧
        (RM.enforce_stop_loss m).2.trade_history = []) := by
  constructor
  · intro ops
    induction ops with
    | nil => intro s h; exact h
    | cons op rest ih =>
        intro s h
        exact ih (Limits.applyLOp s op) (applyLOp_breached s op h)
  · intro m h
    unfold RM.enforce_stop_loss
    rw [if_pos (by omega : m.current_loss ≥ m.max_daily_loss)]
    exact ⟨rfl, rfl, rfl⟩

/-- Witness for C3_amended: the raised flag survives a daily-loss check
followed by an order-rate check, and a manager at its loss limit is
auto-reset by the stop-loss enforcement. -/
theorem C3_amended_witness :
    (Limits.runLOps sampleDirty
        [Limits.LOp.checkDaily, Limits.LOp.checkRate 3]).daily_limit_breached = true ∧
    (RM.enforce_stop_loss breachedRM).2.current_loss = 0 :=
  ⟨C3_amended.1 [Limits.LOp.checkDaily, Limits.LOp.checkRate 3] sampleDirty (by decide),
   (C3_amended.2 breachedRM (by decide)).2.1⟩

/-- C3, counterexample to the claim as stated: on a manager whose loss (6)
has breached the daily limit (5), one monitoring/enforcement cycle reports
the halt but silently resets the risk state (via `_enforce_stop_loss`
calling `reset_risk`), so the very next monitoring cycle passes — the
breached state was cleared by an enforcement step, with no explicit manual
reset in between. -/
theorem C3_counterexample :
    (RM.real_time_risk_monitoring zeroMetric breachedRM).1 = false ∧
    (RM.real_time_risk_monitoring zeroMetric
        (RM.real_time_risk_monitoring zeroMetric breachedRM).2).1 = true := by
  decide

/-! Enforcement re-triggering (claim C1). -/

theorem countLiquidations_append (xs ys : List Monitoring.EnfAction) :
    Monitoring.countLiquidations (xs ++ ys)
      = Monitoring.countLiquidations xs + Monitoring.countLiquidations ys := by
  simp [Monitoring.countLiquidations, List.filter_append]

theorem countAlerts_append (xs ys : List Monitoring.EnfAction) :
    Monitoring.countAlerts (xs ++ ys)
      = Monitoring.countAlerts xs + Monitoring.countAlerts ys := by
  simp [Monitoring.countAlerts, List.filter_append]

theorem countLiquidations_actionsFor (msgs : List String) :
    Monitoring.countLiquidations (Monitoring.actionsFor msgs) = msgs.length := by
  induction msgs with
  | nil => rfl
  | cons msg rest ih =>
      show Monitoring.countLiquidations
          (Monitoring.trigger_risk_alert msg ++ Monitoring.actionsFor rest) = rest.length + 1
      have h1 : Monitoring.countLiquidations (Monitoring.trigger_risk_alert msg) = 1 := rfl
      rw [countLiquidations_append, ih, h1]
      omega

theorem countAlerts_actionsFor (msgs : List String) :
    Monitoring.countAlerts (Monitoring.actionsFor msgs) = msgs.length := by
  induction msgs with
  | nil => rfl
  | cons msg rest ih =>
      show Monitoring.countAlerts
          (Monitoring.trigger_risk_alert msg ++ Monitoring.actionsFor rest) = rest.length + 1
      have h1 : Monitoring.countAlerts (Monitoring.trigger_risk_alert msg) = 1 := rfl
      rw [countAlerts_append, ih, h1]
      omega

/-- C1, amended: the monitoring layer keeps no enforcement state at all
(`trigger_risk_alert` unconditionally halts, liquidates and alerts on
every call), so over `k` consecutive evaluations of an unchanged snapshot
the liquidation and the alert actions each fire `k` times the number of
currently breached conditions — once per breached condition per failing
evaluation, not once per halt transition. -/
theorem C1_amended (m : Monitoring.MonitorState) (k : Nat) :
    Monitoring.countLiquidations (Monitoring.monitor_ticks k m)
        = k * (Monitoring.breachMessages m).length ∧
    Monitoring.countAlerts (Monitoring.monitor_ticks k m)
        = k * (Monitoring.breachMessages m).length := by
  induction k with
  | zero =>
      constructor <;>
        simp [Monitoring.monitor_ticks, Monitoring.countLiquidations, Monitoring.countAlerts]
  | succ k ih =>
      constructor
      · show Monitoring.countLiquidations
            (Monitoring.check_risk_limits m ++ Monitoring.monitor_ticks k m) = _
        rw [countLiquidations_append, ih.1, Monitoring.check_risk_limits,
          countLiquidations_actionsFor]
        ring
      · show Monitoring.countAlerts
            (Monitoring.check_risk_limits m ++ Monitoring.monitor_ticks k m) = _
        rw [countAlerts_append, ih.2, Monitoring.check_risk_limits,
          countAlerts_actionsFor]
        ring

/-- C1, counterexample to the claim as stated: with an exposure breach
persisting across two consecutive evaluations and no reset in between,
the enforcement layer invokes the liquidation action twice and the alert
action twice — once per failing evaluation cycle — not exactly once per
halt transition. -/
theorem C1_counterexample :
    Monitoring.breachMessages breachedMonitor ≠ [] ∧
    Monitoring.countLiquidations (Monitoring.monitor_ticks 2 breachedMonitor) = 2 ∧
    Monitoring.countAlerts (Monitoring.monitor_ticks 2 breachedMonitor) = 2 := by
  decide
